import Mathlib

/-
Verification development for the TestRail analysis dashboard
(src/testrail_analyzer.py). The Python source is shallowly embedded:
pure helper functions become Lean functions on Nat / String / lists,
the HTTP layer becomes an explicit oracle mapping request offsets to
responses, CSV files become lists of rows of cells, and fallible code
returns Option / Except. Machine integers are modelled as Nat
(Python integers are unbounded, so no wrap-around modelling is needed).
-/

namespace TestrailAnalyzer

/-! ## Basic data model -/

/-- A calendar date as produced by `datetime(year, month, day)`. -/
structure Date where
  year : ℕ
  month : ℕ
  day : ℕ
deriving DecidableEq, Repr

/-- The six overall status counters of a build (the overall dict of `build_data`). -/
structure Counts6 where
  passed : ℕ
  failed : ℕ
  error : ℕ
  blocked : ℕ
  retest : ℕ
  skipped : ℕ
deriving DecidableEq, Repr

/-- One platform/device bucket: passed/failed/error counters plus the
per-section failure counts (a Python dict, modelled as an insertion-ordered
association list without duplicate keys). -/
structure DeviceData where
  passed : ℕ
  failed : ℕ
  error : ℕ
  sections : List (String × ℕ)
deriving DecidableEq, Repr

/-- The `single`/`stack` pair kept for every platform. -/
structure PlatformData where
  single : DeviceData
  stack : DeviceData
deriving DecidableEq, Repr

/-- A fully aggregated build record (`build_data` in the source). The
`platforms` dict is modelled as an insertion-ordered association list. -/
structure BuildRecord where
  name : String
  date : String
  overall : Counts6
  platforms : List (String × PlatformData)
deriving DecidableEq, Repr

def emptyDevice : DeviceData := ⟨0, 0, 0, []⟩

def emptyPlatform : PlatformData := ⟨emptyDevice, emptyDevice⟩

/-! ## Naming/date parser (`parse_build_date`, lines 161-196)

Python regex digits (`\d`) are modelled as the ASCII digits; Python also
accepts other Unicode decimal digits, which does not affect any property
stated below. Characters are inspected through `Char.toNat`. -/

def isDigitChar (c : Char) : Bool := 48 ≤ c.toNat && c.toNat ≤ 57

/-- Numeric value of a digit string (what `int()` returns on the groups). -/
def toNum (ds : List Char) : ℕ := ds.foldl (fun a c => a * 10 + (c.toNat - 48)) 0

/-- Do the first `k` characters exist and are they all digits? -/
def prefixDigits (cs : List Char) (k : ℕ) : Bool :=
  decide (k ≤ cs.length) && (cs.take k).all isDigitChar

/-- Leftmost run of `k` consecutive digits, as `re.search` finds it for a
pattern of `k` digit classes; returns the matched digits. -/
def searchDigitRun (k : ℕ) : List Char → Option (List Char)
  | [] => none
  | c :: rest =>
    if prefixDigits (c :: rest) k then some ((c :: rest).take k)
    else searchDigitRun k rest

/-- Leap-year rule used by `datetime`. -/
def isLeapYear (y : ℕ) : Bool := y % 4 == 0 && (y % 100 != 0 || y % 400 == 0)

def daysInMonth (y m : ℕ) : ℕ :=
  if m = 2 then (if isLeapYear y then 29 else 28)
  else if m = 4 ∨ m = 6 ∨ m = 9 ∨ m = 11 then 30
  else 31

/-- Model of `datetime(y, m, d)`: succeeds exactly on valid calendar dates
(year in `MINYEAR..MAXYEAR`, month in `1..12`, day in range for the month);
an invalid candidate raises, which the source catches and ignores. -/
def mkDate (y m d : ℕ) : Option Date :=
  if 1 ≤ y ∧ y ≤ 9999 ∧ 1 ≤ m ∧ m ≤ 12 ∧ 1 ≤ d ∧ d ≤ daysInMonth y m then
    some ⟨y, m, d⟩
  else none

/-- Pattern 1: `(\d{4})(\d{2})(\d{2})(\d{4})` — a 12-digit compact
`YYYYMMDDHHmm` anywhere in the string; only the first match is considered. -/
def datePattern1 (cs : List Char) : Option Date :=
  match searchDigitRun 12 cs with
  | none => none
  | some ds => mkDate (toNum (ds.take 4)) (toNum ((ds.drop 4).take 2)) (toNum ((ds.drop 6).take 2))

/-- Match of `(\d{4})(\d{2})(\d{2})_(\d{6})` anchored at the current
position: 8 digits, an underscore, then 6 digits. -/
def matchP2At (cs : List Char) : Option (List Char) :=
  if prefixDigits cs 8 && ((cs.drop 8).head? == some '_') && prefixDigits (cs.drop 9) 6 then
    some (cs.take 8)
  else none

def searchP2 : List Char → Option (List Char)
  | [] => none
  | c :: rest =>
    match matchP2At (c :: rest) with
    | some ds => some ds
    | none => searchP2 rest

/-- Pattern 2: `YYYYMMDD_HHMMSS` (underscore-delimited). -/
def datePattern2 (cs : List Char) : Option Date :=
  match searchP2 cs with
  | none => none
  | some ds => mkDate (toNum (ds.take 4)) (toNum ((ds.drop 4).take 2)) (toNum ((ds.drop 6).take 2))

def digit2 (c1 c2 : Char) : ℕ := (c1.toNat - 48) * 10 + (c2.toNat - 48)

/-- One `[-]?(\d{2})` group of pattern 3. The optional hyphen is greedy;
if a hyphen is present but not followed by two digits, the backtracked
alternative would have to read the hyphen as a digit, so the group fails. -/
def matchTwo : List Char → Option (ℕ × List Char)
  | '-' :: c1 :: c2 :: rest =>
    if isDigitChar c1 && isDigitChar c2 then some (digit2 c1 c2, rest) else none
  | '-' :: _ => none
  | c1 :: c2 :: rest =>
    if isDigitChar c1 && isDigitChar c2 then some (digit2 c1 c2, rest) else none
  | _ => none

/-- Match of `(\d{4})[-]?(\d{2})[-]?(\d{2})` anchored at the current position. -/
def matchP3At (cs : List Char) : Option (ℕ × ℕ × ℕ) :=
  if prefixDigits cs 4 then
    match matchTwo (cs.drop 4) with
    | none => none
    | some (m, rest2) =>
      match matchTwo rest2 with
      | none => none
      | some (d, _) => some (toNum (cs.take 4), m, d)
  else none

def searchP3 : List Char → Option (ℕ × ℕ × ℕ)
  | [] => none
  | c :: rest =>
    match matchP3At (c :: rest) with
    | some t => some t
    | none => searchP3 rest

/-- Pattern 3: loose `YYYY[-]?MM[-]?DD`. -/
def datePattern3 (cs : List Char) : Option Date :=
  match searchP3 cs with
  | none => none
  | some (y, m, d) => mkDate y m d

/-- Model of `parse_build_date` (lines 161-196): the three patterns are tried in
order; a pattern whose first match yields an invalid calendar date falls
through to the next pattern; `None` if nothing works. -/
def parse_build_date (milestone_name : String) : Option Date :=
  match datePattern1 milestone_name.data with
  | some d => some d
  | none =>
    match datePattern2 milestone_name.data with
    | some d => some d
    | none => datePattern3 milestone_name.data

/-! ## Release-family matching (`matches_release_pattern`, lines 198-228) -/

/-- ASCII lower-casing, as `str.lower()` acts on the characters relevant
here (no non-ASCII character lower-cases to an ASCII letter). -/
def pyLowerChar (c : Char) : Char :=
  if 65 ≤ c.toNat ∧ c.toNat ≤ 90 then Char.ofNat (c.toNat + 32) else c

def pyLower (s : String) : String := String.mk (s.data.map pyLowerChar)

/-- Model of `str.startswith`. -/
def strStartsWith (s pre : String) : Bool := pre.data.isPrefixOf s.data

/-- Substring containment (`needle in hay`). -/
def containsSub (needle : List Char) : List Char → Bool
  | [] => needle.isEmpty
  | c :: rest => needle.isPrefixOf (c :: rest) || containsSub needle rest

def strContainsSub (hay needle : String) : Bool := containsSub needle.data hay.data

/-- Model of `matches_release_pattern` (lines 198-228). -/
def matches_release_pattern (milestone_name release_milestone : String) : Bool :=
  let msL := pyLower milestone_name
  let relL := pyLower release_milestone
  if relL = "cs-1" then
    strStartsWith msL "cs-17-" && (parse_build_date milestone_name).isSome
  else if relL = "switch-17" ∨ relL = "switch-18" then
    strStartsWith msL (relL ++ "-") && (parse_build_date milestone_name).isSome
  else if relL = "nightly" then
    strStartsWith msL "t-" && (parse_build_date milestone_name).isSome
  else if relL = "aurora2" then
    strContainsSub msL "cisco_ios_xe_software" &&
      (strContainsSub msL "bld_v17" || strContainsSub msL "bld_v16") &&
      (parse_build_date milestone_name).isSome
  else if relL = "trunk" then
    (parse_build_date milestone_name).isSome
  else
    strStartsWith msL (relL ++ "-") && (parse_build_date milestone_name).isSome

/-! ## Cache-key sanitization (lines 291 and 407)

Both `save_build_data_to_csv` and `check_cached_builds` build the file
name with the regex substitution replacing the class complement of word
characters, hyphen and underscore. Python `\w` with a `str`
pattern is Unicode-aware: it matches `[A-Za-z0-9_]` plus every other
Unicode word character. The classification below is exact on the Basic
Latin and Latin-1 blocks (code points up to 0xFF); the statements below
only ever evaluate it there. -/

def asciiWordChar (c : Char) : Bool :=
  (65 ≤ c.toNat && c.toNat ≤ 90) || (97 ≤ c.toNat && c.toNat ≤ 122) ||
    (48 ≤ c.toNat && c.toNat ≤ 57) || c.toNat == 95

/-- Latin-1 supplement word characters (the letters of that block). -/
def latin1WordChar (c : Char) : Bool :=
  c.toNat == 0xAA || c.toNat == 0xB5 || c.toNat == 0xBA ||
    (0xC0 ≤ c.toNat && c.toNat ≤ 0xD6) || (0xD8 ≤ c.toNat && c.toNat ≤ 0xF6) ||
    (0xF8 ≤ c.toNat && c.toNat ≤ 0xFF)

def pythonWordChar (c : Char) : Bool :=
  asciiWordChar c || (128 ≤ c.toNat && latin1WordChar c)

/-- The character class `[\w\-_]` of the sanitizer: kept characters
(`-` is 45, `_` is 95). -/
def sanitizeKeep (c : Char) : Bool :=
  pythonWordChar c || c.toNat == 45 || c.toNat == 95

/-- Model of the regex substitution on the build name, the cache-key sanitizer shared
by `save_build_data_to_csv` (line 291) and `check_cached_builds` (line 407). -/
def sanitize_build_name (s : String) : String :=
  String.mk (s.data.map fun c => if sanitizeKeep c then c else '_')

/-- The sanitizer as the spec words it: any character outside
`[A-Za-z0-9_-]` is replaced with an underscore, characters inside the set
are kept. Stated for refinement comparison against `sanitize_build_name`. -/
def spec_sanitize (s : String) : String :=
  String.mk (s.data.map fun c =>
    if (65 ≤ c.toNat && c.toNat ≤ 90) || (97 ≤ c.toNat && c.toNat ≤ 122) ||
        (48 ≤ c.toNat && c.toNat ≤ 57) || c.toNat == 95 || c.toNat == 45 then c
    else '_')

/-! ## Status percentages (`calculate_status_percentages`, lines 417-429)

Python float division is modelled with exact rational arithmetic; the
claims are stated "within rounding", which the exact values settle. -/

/-- Model of `calculate_status_percentages`: note that it returns only FIVE
percentages (pass, fail, error, blocked, skip); no retest percentage is
computed, although `retest` enters the total. -/
def calculate_status_percentages (passed failed error blocked retest skipped : ℕ) :
    ℚ × ℚ × ℚ × ℚ × ℚ :=
  let total : ℚ := ((passed + failed + error + blocked + retest + skipped : ℕ) : ℚ)
  if total = 0 then (0, 0, 0, 0, 0)
  else ((passed : ℚ) / total * 100, (failed : ℚ) / total * 100, (error : ℚ) / total * 100,
    (blocked : ℚ) / total * 100, (skipped : ℚ) / total * 100)

/-- Sum of the five returned percentages. -/
def pctSum (t : ℚ × ℚ × ℚ × ℚ × ℚ) : ℚ := t.1 + t.2.1 + t.2.2.1 + t.2.2.2.1 + t.2.2.2.2

/-- The retest share of the total, `retest / total * 100` — the sixth
percentage the claim speaks of; the function itself never computes it. -/
def retestShare (passed failed error blocked retest skipped : ℕ) : ℚ :=
  let total : ℚ := ((passed + failed + error + blocked + retest + skipped : ℕ) : ℚ)
  (retest : ℚ) / total * 100

/-! ## Summary-only degraded section estimate (lines 840-866)

`failures_per_section = (failed + error) // len(section_names)` and
`remainder = (failed + error) % len(section_names)` are computed over ALL
sections, but `enumerate(section_names[:5])` attributes counts to at most
the first five sections, each labelled `"<name> (estimated)"`; counts of
zero are not recorded. -/

def estLoop (per rem : ℕ) : List String → ℕ → List (String × ℕ)
  | [], _ => []
  | name :: rest, i =>
    let c := per + (if i < rem then 1 else 0)
    (if 0 < c then [(name ++ " (estimated)", c)] else []) ++ estLoop per rem rest (i + 1)

/-- The degraded estimate block (lines 849-858): the per-section quota and
remainder over the full section list, attributed to the first five only. -/
def estimate_summary_sections (section_names : List String) (failures : ℕ) :
    List (String × ℕ) :=
  let per := failures / section_names.length
  let rem := failures % section_names.length
  estLoop per rem (section_names.take 5) 0

/-- Total failure count attributed by a list of section rows. -/
def sumCounts (l : List (String × ℕ)) : ℕ := (l.map Prod.snd).sum

/-! ## Remote client (`send_get` and the paginated fetches, lines 22-150)

The transport (`requests.get`) is an oracle mapping a request to its
outcome; list payloads carry opaque items modelled as naturals. -/

/-- A decoded JSON payload: an array, or some non-array value. -/
inductive JsonVal
  | arr (items : List ℕ)
  | obj
deriving DecidableEq, Repr

/-- Outcome of one underlying HTTP call. -/
inductive HttpResult
  | timeout
  | connError
  | response (status : ℕ) (body : Option JsonVal)
deriving DecidableEq, Repr

/-- The distinct exceptions `send_get` raises (lines 29-41). -/
inductive ApiError
  | timeoutErr
  | connErr
  | statusErr (code : ℕ)
  | jsonErr
deriving DecidableEq, Repr

/-- Model of `send_get` (lines 22-41): re-raises timeouts and connection failures,
rejects non-200 statuses and non-JSON bodies, otherwise returns the JSON. -/
def send_get (r : HttpResult) : Except ApiError JsonVal :=
  match r with
  | .timeout => .error .timeoutErr
  | .connError => .error .connErr
  | .response status body =>
    if status ≠ 200 then .error (.statusErr status)
    else
      match body with
      | none => .error .jsonErr
      | some v => .ok v

/-- Result of a paginated fetch: the accumulated items, or the raw
response when the server answered with a non-list. -/
inductive PageResult
  | items (xs : List ℕ)
  | single
deriving DecidableEq, Repr

/-- Loop body of `get_milestones` (lines 43-62). `fuel` bounds the
unbounded `while True` loop; every stated property supplies enough fuel.
The bare `except: break` of the source catches ANY exception and returns
whatever was accumulated so far. -/
def getMilestonesGo (server : ℕ → HttpResult) : ℕ → ℕ → List ℕ → PageResult
  | 0, _, acc => .items acc
  | fuel + 1, offset, acc =>
    match send_get (server offset) with
    | .error _ => .items acc
    | .ok .obj => .single
    | .ok (.arr xs) =>
      if xs = [] then .items acc
      else if xs.length < 250 then .items (acc ++ xs)
      else getMilestonesGo server fuel (offset + xs.length) (acc ++ xs)

/-- Model of `get_milestones` (lines 43-62). -/
def get_milestones (server : ℕ → HttpResult) (fuel : ℕ) : PageResult :=
  getMilestonesGo server fuel 0 []

/-- Loop body of `get_plans` (lines 68-87); the source duplicates the
`get_milestones` loop verbatim, bare `except: break` included. -/
def getPlansGo (server : ℕ → HttpResult) : ℕ → ℕ → List ℕ → PageResult
  | 0, _, acc => .items acc
  | fuel + 1, offset, acc =>
    match send_get (server offset) with
    | .error _ => .items acc
    | .ok .obj => .single
    | .ok (.arr xs) =>
      if xs = [] then .items acc
      else if xs.length < 250 then .items (acc ++ xs)
      else getPlansGo server fuel (offset + xs.length) (acc ++ xs)

/-- Model of `get_plans` (lines 68-87). -/
def get_plans (server : ℕ → HttpResult) (fuel : ℕ) : PageResult :=
  getPlansGo server fuel 0 []

/-- Loop body of `get_results_for_run` (lines 105-150), also recording the
offset of every request issued. The whole loop sits in a `try` whose
handler reports the error and falls through to `return results`, so an
exception mid-pagination yields the items collected so far. `limit=None`
and `limit=0` are both falsy in `if limit:`, hence `Option ℕ` with
`some 0` treated like `none`. -/
def getResultsGo (server : ℕ → HttpResult) (limit : Option ℕ) :
    ℕ → ℕ → List ℕ → List ℕ → List ℕ × List ℕ
  | 0, _, acc, log => (acc, log)
  | fuel + 1, offset, acc, log =>
    let step : Option ℕ :=
      match limit with
      | none => some 250
      | some l =>
        if l = 0 then some 250
        else if l ≤ acc.length then none
        else some (min (l - acc.length) 250)
    match step with
    | none => (acc, log)
    | some currentLimit =>
      let log2 := log ++ [offset]
      match send_get (server offset) with
      | .error _ => (acc, log2)
      | .ok .obj => (acc, log2)
      | .ok (.arr batch) =>
        if batch = [] then (acc, log2)
        else
          let acc2 := acc ++ batch
          if batch.length < currentLimit then (acc2, log2)
          else if 10000 < acc2.length then (acc2, log2)
          else getResultsGo server limit fuel (offset + batch.length) acc2 log2

/-- Model of `get_results_for_run` (lines 105-150): returns the accumulated results
together with the list of request offsets issued. -/
def get_results_for_run (server : ℕ → HttpResult) (limit : Option ℕ) (fuel : ℕ) :
    List ℕ × List ℕ :=
  getResultsGo server limit fuel 0 [] []

/-! ## Cache store (`save_build_data_to_csv` / `load_build_data_from_csv`,
lines 286-397)

A CSV file is a list of rows of cells. The `csv` module round-trips any
cell string, so files are modelled at the row level. The writer stringifies
integers, and the reader applies `int()` exactly to the cells the writer
wrote as integers, so a cell is either a string or a written-out natural;
`cellNat` models `int()` raising on the non-numeric strings the loader can
actually meet, and string comparisons agree with Python because `str(n)`
never equals any of the compared labels. -/

inductive Cell
  | str (s : String)
  | nat (n : ℕ)
deriving DecidableEq, Repr

abbrev Row := List Cell

def cellStr : Cell → String
  | .str s => s
  | .nat n => toString n

def cellNat : Cell → Option ℕ
  | .nat n => some n
  | .str _ => none

def deviceRow (p dev : String) (d : DeviceData) : Row :=
  [.str p, .str dev, .nat d.passed, .nat d.failed, .nat d.error]

def platformRows (ps : List (String × PlatformData)) : List Row :=
  (ps.map fun x => [deviceRow x.1 "single" x.2.single, deviceRow x.1 "stack" x.2.stack]).flatten

/-- Section rows of one device bucket; rows with `count == 0` are omitted
(line 333: `if count > 0`). -/
def sectionRowsDev (p dev : String) (secs : List (String × ℕ)) : List Row :=
  secs.filterMap fun sc =>
    if 0 < sc.2 then some [.str p, .str dev, .str sc.1, .nat sc.2] else none

def sectionRows (ps : List (String × PlatformData)) : List Row :=
  (ps.map fun x =>
    sectionRowsDev x.1 "single" x.2.single.sections ++
      sectionRowsDev x.1 "stack" x.2.stack.sections).flatten

/-- Model of `save_build_data_to_csv` (lines 286-336), as the list of rows written. -/
def save_build_data_to_csv (b : BuildRecord) : List Row :=
  [[.str "SUMMARY"], [.str "metric", .str "value"],
   [.str "name", .str b.name], [.str "date", .str b.date],
   [.str "passed", .nat b.overall.passed], [.str "failed", .nat b.overall.failed],
   [.str "error", .nat b.overall.error], [.str "blocked", .nat b.overall.blocked],
   [.str "retest", .nat b.overall.retest], [.str "skipped", .nat b.overall.skipped],
   [], [.str "PLATFORMS"],
   [.str "platform", .str "device_type", .str "passed", .str "failed", .str "error"]]
  ++ platformRows b.platforms
  ++ [[], [.str "SECTIONS"],
      [.str "platform", .str "device_type", .str "section", .str "count"]]
  ++ sectionRows b.platforms

/-- The in-memory result of the loader. The initial dict of the loader has no
`name`/`date` keys, so those are optional; `overall` starts zeroed and
`platforms` starts empty (lines 340-346). -/
structure LoadedBuild where
  name? : Option String
  date? : Option String
  overall : Counts6
  platforms : List (String × PlatformData)
deriving DecidableEq, Repr

def emptyLoaded : LoadedBuild := ⟨none, none, ⟨0, 0, 0, 0, 0, 0⟩, []⟩

/-- The view of a `BuildRecord` the loader reconstructs; round-trip
equality (`read(write(record)) == record`) is
`load ... = some (toLoaded record)`. -/
def toLoaded (b : BuildRecord) : LoadedBuild :=
  ⟨some b.name, some b.date, b.overall, b.platforms⟩

/-- Python `defaultdict` access plus mutation: update the entry in place
when the key exists, append a freshly defaulted entry otherwise. -/
def updatePlatform (ps : List (String × PlatformData)) (p : String)
    (f : PlatformData → PlatformData) : List (String × PlatformData) :=
  match ps with
  | [] => [(p, f emptyPlatform)]
  | (q, pd) :: rest =>
    if q = p then (q, f pd) :: rest else (q, pd) :: updatePlatform rest p f

/-- Assignment `sections[section] = count` on the sections dict. -/
def upsertSection (secs : List (String × ℕ)) (s : String) (n : ℕ) :
    List (String × ℕ) :=
  match secs with
  | [] => [(s, n)]
  | (t, m) :: rest =>
    if t = s then (t, n) :: rest else (t, m) :: upsertSection rest s n

/-- Application of one SUMMARY data row (lines 372-379): `name` and `date`
are stored as strings, the six known counters go through `int()`, any
other metric is ignored. -/
def setMetric (b : LoadedBuild) (c0 c1 : Cell) : Option LoadedBuild :=
  if c0 = .str "name" then some { b with name? := some (cellStr c1) }
  else if c0 = .str "date" then some { b with date? := some (cellStr c1) }
  else if c0 = .str "passed" then (cellNat c1).map fun n => { b with overall.passed := n }
  else if c0 = .str "failed" then (cellNat c1).map fun n => { b with overall.failed := n }
  else if c0 = .str "error" then (cellNat c1).map fun n => { b with overall.error := n }
  else if c0 = .str "blocked" then (cellNat c1).map fun n => { b with overall.blocked := n }
  else if c0 = .str "retest" then (cellNat c1).map fun n => { b with overall.retest := n }
  else if c0 = .str "skipped" then (cellNat c1).map fun n => { b with overall.skipped := n }
  else some b

def setDevCounts (d : DeviceData) (pa fa er : ℕ) : DeviceData :=
  { d with passed := pa, failed := fa, error := er }

/-- The three per-device assignments of a PLATFORMS row; a device label
other than `single`/`stack` raises `KeyError` on the fixed inner dict. -/
def applyPlatformCells (b : LoadedBuild) (c0 c1 : Cell) (pa fa er : ℕ) :
    Option LoadedBuild :=
  if c1 = .str "single" then
    let ps := updatePlatform b.platforms (cellStr c0)
      (fun pd => { pd with single := setDevCounts pd.single pa fa er })
    some { b with platforms := ps }
  else if c1 = .str "stack" then
    let ps := updatePlatform b.platforms (cellStr c0)
      (fun pd => { pd with stack := setDevCounts pd.stack pa fa er })
    some { b with platforms := ps }
  else none

/-- One PLATFORMS data row (lines 381-391): 5-column current format,
4-column legacy format with `error` defaulted to 0, any other width is
silently ignored. -/
def applyPlatformRow (b : LoadedBuild) : Row → Option LoadedBuild
  | [c0, c1, c2, c3, c4] =>
    match cellNat c2, cellNat c3, cellNat c4 with
    | some pa, some fa, some er => applyPlatformCells b c0 c1 pa fa er
    | _, _, _ => none
  | [c0, c1, c2, c3] =>
    match cellNat c2, cellNat c3 with
    | some pa, some fa => applyPlatformCells b c0 c1 pa fa 0
    | _, _ => none
  | _ => some b

/-- One SECTIONS data row (lines 393-395): exactly four columns are
unpacked (other widths raise `ValueError`), the device label must be a
key of the inner dict, the count goes through `int()`. -/
def applySectionRow (b : LoadedBuild) : Row → Option LoadedBuild
  | [c0, c1, c2, c3] =>
    match cellNat c3 with
    | none => none
    | some n =>
      if c1 = .str "single" then
        let ps := updatePlatform b.platforms (cellStr c0)
          (fun pd =>
            let d := { pd.single with sections := upsertSection pd.single.sections (cellStr c2) n }
            { pd with single := d })
        some { b with platforms := ps }
      else if c1 = .str "stack" then
        let ps := updatePlatform b.platforms (cellStr c0)
          (fun pd =>
            let d := { pd.stack with sections := upsertSection pd.stack.sections (cellStr c2) n }
            { pd with stack := d })
        some { b with platforms := ps }
      else none
  | _ => none

/-- Parser state: which labelled section of the file is being read. -/
inductive LoadSect
  | start
  | summary
  | platforms
  | sections
deriving DecidableEq, Repr

/-- The row loop of `load_build_data_from_csv` (lines 348-396): empty rows
are skipped; a row whose first cell is a section sentinel switches state
and unconditionally skips the following header row (`next(reader)` on an
exhausted iterator raises); otherwise the row is dispatched on the current
state, and a data row before any sentinel is ignored. -/
def loadGo : List Row → LoadSect → LoadedBuild → Option LoadedBuild
  | [], _, b => some b
  | row :: rest, sect, b =>
    match row with
    | [] => loadGo rest sect b
    | c0 :: _ =>
      if c0 = Cell.str "SUMMARY" then
        match rest with
        | [] => none
        | _ :: rest2 => loadGo rest2 .summary b
      else if c0 = Cell.str "PLATFORMS" then
        match rest with
        | [] => none
        | _ :: rest2 => loadGo rest2 .platforms b
      else if c0 = Cell.str "SECTIONS" then
        match rest with
        | [] => none
        | _ :: rest2 => loadGo rest2 .sections b
      else
        match sect with
        | .start => loadGo rest .start b
        | .summary =>
          match row with
          | cm :: cv :: _ =>
            match setMetric b cm cv with
            | some b2 => loadGo rest .summary b2
            | none => none
          | _ => none
        | .platforms =>
          match applyPlatformRow b row with
          | some b2 => loadGo rest .platforms b2
          | none => none
        | .sections =>
          match applySectionRow b row with
          | some b2 => loadGo rest .sections b2
          | none => none

/-- Model of `load_build_data_from_csv` (lines 338-397). -/
def load_build_data_from_csv (rows : List Row) : Option LoadedBuild :=
  loadGo rows .start emptyLoaded

/-! ## Aggregation step (lines 762-772 and 827-838)

Both accumulation sites — the detailed-results tier and the summary tier —
add the six status counts of one run to `overall` and, when the platform is
classified and the device category is `single` or `stack`, add the same
passed/failed/error amounts to that platform/device bucket. -/

/-- Contribution of one run: classifier outputs and the six counts added. -/
structure RunInput where
  platform : String
  device : String
  counts : Counts6
deriving DecidableEq, Repr

def addCounts (a b : Counts6) : Counts6 :=
  ⟨a.passed + b.passed, a.failed + b.failed, a.error + b.error,
   a.blocked + b.blocked, a.retest + b.retest, a.skipped + b.skipped⟩

def bumpDevice (d : DeviceData) (c : Counts6) : DeviceData :=
  { d with passed := d.passed + c.passed, failed := d.failed + c.failed,
           error := d.error + c.error }

/-- Accumulation of one run into the build (both tiers share this shape). -/
def applyRun (b : BuildRecord) (r : RunInput) : BuildRecord :=
  let b1 := { b with overall := addCounts b.overall r.counts }
  if r.platform ≠ "Unknown" ∧ (r.device = "single" ∨ r.device = "stack") then
    if r.device = "single" then
      let ps := updatePlatform b1.platforms r.platform
        (fun pd => { pd with single := bumpDevice pd.single r.counts })
      { b1 with platforms := ps }
    else
      let ps := updatePlatform b1.platforms r.platform
        (fun pd => { pd with stack := bumpDevice pd.stack r.counts })
      { b1 with platforms := ps }
  else b1

/-- The freshly initialised `build_data` of lines 615-623. -/
def initBuild (name date : String) : BuildRecord :=
  ⟨name, date, ⟨0, 0, 0, 0, 0, 0⟩, []⟩

/-- Sum of a per-device projection over every platform/topology bucket. -/
def platSum (ps : List (String × PlatformData)) (f : DeviceData → ℕ) : ℕ :=
  (ps.map fun x => f x.2.single + f x.2.stack).sum

/-- The aggregation invariant: each overall counter dominates the sum of
that status over all platform buckets. -/
def AggInv (b : BuildRecord) : Prop :=
  platSum b.platforms (fun d => d.passed) ≤ b.overall.passed ∧
  platSum b.platforms (fun d => d.failed) ≤ b.overall.failed ∧
  platSum b.platforms (fun d => d.error) ≤ b.overall.error

/-! ## Statement-level definitions: bounds, validity, concrete servers and records -/

/-- Bound the claim asserts for each percentage: within 0 and 100. -/
def InPctRange (q : ℚ) : Prop := 0 ≤ q ∧ q ≤ 100

/-- All five returned percentages lie within 0 and 100. -/
def AllInPctRange (t : ℚ × ℚ × ℚ × ℚ × ℚ) : Prop :=
  InPctRange t.1 ∧ InPctRange t.2.1 ∧ InPctRange t.2.2.1 ∧ InPctRange t.2.2.2.1 ∧
    InPctRange t.2.2.2.2

/-- Validity of a calendar date, as enforced by the `datetime` constructor. -/
def ValidDate (d : Date) : Prop :=
  1 ≤ d.year ∧ d.year ≤ 9999 ∧ 1 ≤ d.month ∧ d.month ≤ 12 ∧
    1 ≤ d.day ∧ d.day ≤ daysInMonth d.year d.month

/-- One full page of 250 opaque items. -/
def page250 : List ℕ := List.replicate 250 7

/-- Server that answers offset 0 with a full page and times out on every later request. -/
def srvTimeout : ℕ → HttpResult := fun o =>
  if o = 0 then .response 200 (some (.arr page250)) else .timeout

/-- First page of the concrete three-page sequence. -/
def pageA : List ℕ := List.replicate 250 1

/-- Second page of the concrete three-page sequence. -/
def pageB : List ℕ := List.replicate 250 2

/-- Third, short page of the concrete three-page sequence. -/
def pageC : List ℕ := List.replicate 100 3

/-- Server answering pages of sizes 250, 250 and 100 at offsets 0, 250 and 500. -/
def srvPages : ℕ → HttpResult := fun o =>
  if o = 0 then .response 200 (some (.arr pageA))
  else if o = 250 then .response 200 (some (.arr pageB))
  else if o = 500 then .response 200 (some (.arr pageC))
  else .timeout

/-- Server that answers every offset with a full page of 250 items. -/
def serverFull : ℕ → HttpResult := fun _ => .response 200 (some (.arr page250))

/-- Platform entry as the PLATFORMS pass reconstructs it: counts set, sections still empty. -/
def stripPlat (pd : PlatformData) : PlatformData :=
  ⟨⟨pd.single.passed, pd.single.failed, pd.single.error, []⟩,
   ⟨pd.stack.passed, pd.stack.failed, pd.stack.error, []⟩⟩

/-- Replace the platforms list of a loader state. -/
def setPlatformsL (b : LoadedBuild) (ps : List (String × PlatformData)) : LoadedBuild :=
  { b with platforms := ps }

/-- Append section rows to the single bucket of a platform entry. -/
def addSecsSingle (X : PlatformData) (secs : List (String × ℕ)) : PlatformData :=
  ⟨⟨X.single.passed, X.single.failed, X.single.error, X.single.sections ++ secs⟩, X.stack⟩

/-- Append section rows to the stack bucket of a platform entry. -/
def addSecsStack (X : PlatformData) (secs : List (String × ℕ)) : PlatformData :=
  ⟨X.single, ⟨X.stack.passed, X.stack.failed, X.stack.error, X.stack.sections ++ secs⟩⟩

/-- Shape facts every record built by the aggregation loop satisfies: dict keys are unique within each dict, and no platform name collides with one of the three section sentinels of the file format. -/
def WFRecord (b : BuildRecord) : Prop :=
  (b.platforms.map Prod.fst).Nodup ∧
  (∀ x ∈ b.platforms, x.1 ≠ "SUMMARY" ∧ x.1 ≠ "PLATFORMS" ∧ x.1 ≠ "SECTIONS") ∧
  (∀ x ∈ b.platforms, (x.2.single.sections.map Prod.fst).Nodup ∧
    (x.2.stack.sections.map Prod.fst).Nodup)

/-- Every recorded section count is positive; the writer drops zero-count rows. -/
def PosSections (b : BuildRecord) : Prop :=
  ∀ x ∈ b.platforms, (∀ sc ∈ x.2.single.sections, 0 < sc.2) ∧
    (∀ sc ∈ x.2.stack.sections, 0 < sc.2)

/-- Cache file in the legacy format: its PLATFORMS data row has only 4 columns. -/
def legacyRows : List Row :=
  [[.str "SUMMARY"], [.str "metric", .str "value"],
   [.str "name", .str "old-build"], [.str "date", .str "2024-01-01"],
   [.str "passed", .nat 7], [.str "failed", .nat 3],
   [],
   [.str "PLATFORMS"], [.str "platform", .str "device_type", .str "passed", .str "failed"],
   [.str "MS120", .str "single", .nat 7, .nat 3]]

/-- Record expected from `legacyRows`, with the error count defaulted to 0. -/
def legacyLoaded : LoadedBuild :=
  ⟨some "old-build", some "2024-01-01", ⟨7, 3, 0, 0, 0, 0⟩,
   [("MS120", ⟨⟨7, 3, 0, []⟩, ⟨0, 0, 0, []⟩⟩)]⟩

/-- Record holding a section entry with count 0. -/
def cexRecord : BuildRecord :=
  ⟨"b", "2025-01-01", ⟨1, 2, 3, 4, 5, 6⟩,
   [("MS120", ⟨⟨1, 1, 0, [("S", 0)]⟩, ⟨0, 0, 0, []⟩⟩)]⟩

/-- Well-formed record with positive section counts, for the concrete round trip. -/
def wRecord : BuildRecord :=
  ⟨"build-x", "2025-06-02", ⟨10, 2, 1, 0, 3, 4⟩,
   [("MS120", ⟨⟨5, 1, 0, [("SecA", 1)]⟩, ⟨2, 1, 1, [("SecB", 2), ("SecC", 1)]⟩⟩),
    ("C9300", ⟨⟨3, 0, 0, []⟩, ⟨0, 0, 0, []⟩⟩)]⟩

/-! ## Theorems -/

/-- C2 counterexample: at the all-zero tuple (a valid six-status tuple of non-negative integers) the function returns five zeros, the retest share is 0, and the sum is 0, not 100. -/
theorem c2_counterexample :
    pctSum (calculate_status_percentages 0 0 0 0 0 0) + retestShare 0 0 0 0 0 0 ≠ 100 := by
  norm_num [calculate_status_percentages, pctSum, retestShare]

/-- C2 (amended): for every six-status tuple with a positive total, the five percentages returned by `calculate_status_percentages`, together with the retest share of the total, sum to exactly 100, and every returned percentage lies within 0 and 100. The function itself computes no retest percentage, and at total 0 it returns all zeros. -/
theorem c2_percentages (passed failed error blocked retest skipped : ℕ)
    (h : 0 < passed + failed + error + blocked + retest + skipped) :
    pctSum (calculate_status_percentages passed failed error blocked retest skipped) +
        retestShare passed failed error blocked retest skipped = 100 ∧
      AllInPctRange (calculate_status_percentages passed failed error blocked retest skipped) := by
  have hTpos : (0 : ℚ) < ((passed + failed + error + blocked + retest + skipped : ℕ) : ℚ) := by
    exact_mod_cast h
  have hT0 : ((passed + failed + error + blocked + retest + skipped : ℕ) : ℚ) ≠ 0 := hTpos.ne'
  have key : ∀ x : ℕ, x ≤ passed + failed + error + blocked + retest + skipped →
      InPctRange ((x : ℚ) / ((passed + failed + error + blocked + retest + skipped : ℕ) : ℚ) * 100) := by
    intro x hx
    constructor
    · positivity
    · have hxT : (x : ℚ) ≤ ((passed + failed + error + blocked + retest + skipped : ℕ) : ℚ) := by
        exact_mod_cast hx
      rw [div_mul_eq_mul_div, div_le_iff₀ hTpos]
      nlinarith
  refine ⟨?_, ?_⟩
  · have hT0' : ((passed : ℚ) + failed + error + blocked + retest + skipped) ≠ 0 := by
      push_cast at hT0
      exact hT0
    simp only [calculate_status_percentages, pctSum, retestShare, if_neg hT0]
    push_cast
    field_simp
    ring
  · simp only [calculate_status_percentages, if_neg hT0, AllInPctRange]
    exact ⟨key passed (by omega), key failed (by omega), key error (by omega),
      key blocked (by omega), key skipped (by omega)⟩

/-- C2 witness: the amended statement evaluated at the all-ones tuple. -/
theorem c2_percentages_witness :
    pctSum (calculate_status_percentages 1 1 1 1 1 1) + retestShare 1 1 1 1 1 1 = 100 ∧
      AllInPctRange (calculate_status_percentages 1 1 1 1 1 1) :=
  c2_percentages 1 1 1 1 1 1 (by decide)

/-- Total attributed by the estimate loop over a window of indices: one quota per section plus one for every index below the remainder. -/
theorem estLoop_sum (per rem : ℕ) (L : List String) (i0 : ℕ) :
    sumCounts (estLoop per rem L i0) =
      L.length * per + (min rem (i0 + L.length) - min rem i0) := by
  induction L generalizing i0 with
  | nil => simp [estLoop, sumCounts]
  | cons a L ih =>
    have hstep : sumCounts (estLoop per rem (a :: L) i0) =
        (per + (if i0 < rem then 1 else 0)) + sumCounts (estLoop per rem L (i0 + 1)) := by
      by_cases hi : i0 < rem <;> by_cases hp : 0 < per <;>
          simp [estLoop, sumCounts, hi, hp] <;> omega
    rw [hstep, ih (i0 + 1)]
    simp only [List.length_cons, Nat.succ_mul]
    by_cases hi : i0 < rem
    · simp only [hi, if_true]
      omega
    · simp only [hi, if_false]
      omega

/-- C4 counterexample: with 6 sections and failed + error = 6 the quota is 1 per section, but only the first five sections are attributed, so the attributed sum is 5, not 6. -/
theorem c4_counterexample :
    sumCounts (estimate_summary_sections ["a", "b", "c", "d", "e", "f"] 6) ≠ 6 := by
  decide

/-- C4 (amended): when the suite has at most 5 sections, the degraded estimate attributes exactly failed + error in total across the estimated section labels. With more sections the quota is divided over all of them but attributed to only the first five, and part of the count is lost. -/
theorem c4_estimate_sum (section_names : List String) (failures : ℕ)
    (hne : section_names ≠ []) (hlen : section_names.length ≤ 5) (hpos : 0 < failures) :
    sumCounts (estimate_summary_sections section_names failures) = failures := by
  have hlpos : 0 < section_names.length := List.length_pos.mpr hne
  have hrem : failures % section_names.length < section_names.length :=
    Nat.mod_lt _ hlpos
  simp only [estimate_summary_sections]
  rw [List.take_of_length_le hlen, estLoop_sum, Nat.zero_add,
    min_eq_left (le_of_lt hrem), Nat.min_zero, Nat.sub_zero]
  exact Nat.div_add_mod failures section_names.length

/-- C4 witness: three sections and seven failures, attributed sum seven. -/
theorem c4_estimate_sum_witness :
    sumCounts (estimate_summary_sections ["a", "b", "c"] 7) = 7 :=
  c4_estimate_sum ["a", "b", "c"] 7 (by decide) (by decide) (by decide)

/-- Characterisation of the kept characters of the sanitizer. -/
theorem sanitizeKeep_iff (c : Char) :
    sanitizeKeep c = true ↔
      ((65 ≤ c.toNat ∧ c.toNat ≤ 90) ∨ (97 ≤ c.toNat ∧ c.toNat ≤ 122) ∨
        (48 ≤ c.toNat ∧ c.toNat ≤ 57) ∨ c.toNat = 95 ∨ c.toNat = 45 ∨
        (128 ≤ c.toNat ∧ latin1WordChar c = true)) := by
  simp only [sanitizeKeep, pythonWordChar, asciiWordChar, Bool.or_eq_true,
    Bool.and_eq_true, decide_eq_true_eq, beq_iff_eq]
  tauto

/-- C5 counterexample: the Latin small letter e with acute is outside the set named by the claim, yet it is a Unicode word character, so the code keeps it while the claimed sanitizer would replace it. -/
theorem c5_counterexample : sanitize_build_name "é" ≠ spec_sanitize "é" := by
  decide

/-- C5 (amended): on build names made of ASCII characters, the sanitizer shared by `save_build_data_to_csv` and `check_cached_builds` replaces exactly the characters outside the claimed set with an underscore and keeps the others; non-ASCII Unicode word characters are kept, not replaced, because Python regex word matching is Unicode-aware. -/
theorem c5_sanitize_ascii (s : String) (h : ∀ c ∈ s.data, c.toNat < 128) :
    sanitize_build_name s = spec_sanitize s := by
  unfold sanitize_build_name spec_sanitize
  congr 1
  apply List.map_congr_left
  intro c hc
  have hlt := h c hc
  have hlatin : ¬ (128 ≤ c.toNat ∧ latin1WordChar c = true) := by
    intro hcon
    omega
  by_cases hk : sanitizeKeep c = true
  · have hspec : ((65 ≤ c.toNat && c.toNat ≤ 90) || (97 ≤ c.toNat && c.toNat ≤ 122) ||
        (48 ≤ c.toNat && c.toNat ≤ 57) || c.toNat == 95 || c.toNat == 45) = true := by
      rcases (sanitizeKeep_iff c).mp hk with h1 | h1 | h1 | h1 | h1 | h1 <;>
        simp only [Bool.or_eq_true, Bool.and_eq_true, decide_eq_true_eq, beq_iff_eq] <;>
        tauto
    rw [if_pos hk, if_pos hspec]
  · have hspec : ¬ ((65 ≤ c.toNat && c.toNat ≤ 90) || (97 ≤ c.toNat && c.toNat ≤ 122) ||
        (48 ≤ c.toNat && c.toNat ≤ 57) || c.toNat == 95 || c.toNat == 45) = true := by
      intro hcon
      apply hk
      rw [sanitizeKeep_iff]
      simp only [Bool.or_eq_true, Bool.and_eq_true, decide_eq_true_eq, beq_iff_eq] at hcon
      tauto
    rw [if_neg hk, if_neg hspec]

/-- C5 witness: the two sanitizers agree on a concrete ASCII name. -/
theorem c5_sanitize_ascii_witness : sanitize_build_name "cs 17.2 build!" = spec_sanitize "cs 17.2 build!" :=
  c5_sanitize_ascii "cs 17.2 build!" (by decide)

/-- A date accepted by the `datetime` model is valid. -/
theorem mkDate_valid {y m dd : ℕ} {d : Date} (h : mkDate y m dd = some d) : ValidDate d := by
  unfold mkDate at h
  split at h
  · cases h
    exact ‹_›
  · cases h

/-- Dates produced by pattern 1 are valid. -/
theorem datePattern1_valid {cs : List Char} {d : Date} (h : datePattern1 cs = some d) :
    ValidDate d := by
  unfold datePattern1 at h
  split at h
  · cases h
  · exact mkDate_valid h

/-- Dates produced by pattern 2 are valid. -/
theorem datePattern2_valid {cs : List Char} {d : Date} (h : datePattern2 cs = some d) :
    ValidDate d := by
  unfold datePattern2 at h
  split at h
  · cases h
  · exact mkDate_valid h

/-- Dates produced by pattern 3 are valid. -/
theorem datePattern3_valid {cs : List Char} {d : Date} (h : datePattern3 cs = some d) :
    ValidDate d := by
  unfold datePattern3 at h
  split at h
  · cases h
  · exact mkDate_valid h

/-- C9: `parse_build_date` is total by construction, and every date it returns is a valid calendar date; a candidate with an impossible month or day is rejected by the `datetime` constructor and never returned. -/
theorem c9_parse_total (s : String) (d : Date) (h : parse_build_date s = some d) :
    ValidDate d := by
  unfold parse_build_date at h
  split at h
  · rename_i h1
    cases h
    exact datePattern1_valid h1
  · split at h
    · rename_i h2
      cases h
      exact datePattern2_valid h2
    · exact datePattern3_valid h

/-- C9 witness: the parser applied to the first spec example yields the valid date 2025-06-02. -/
theorem c9_parse_total_witness : ValidDate ⟨2025, 6, 2⟩ :=
  c9_parse_total "cs-17-2-202506022349-G9b920b73c087-rel-bricklaying" ⟨2025, 6, 2⟩ (by decide)

/-- C7: for every identifier, the CS-1 family matches exactly the identifiers whose lower-casing starts with cs-17- and which carry a parsable date; switch-17 and switch-18 match exactly their own prefix followed by a hyphen plus a parsable date; and the two concrete spec examples evaluate as claimed. -/
theorem c7_release_matching :
    (∀ s : String, matches_release_pattern s "CS-1" =
        (strStartsWith (pyLower s) "cs-17-" && (parse_build_date s).isSome)) ∧
    (∀ s : String, matches_release_pattern s "switch-17" =
        (strStartsWith (pyLower s) "switch-17-" && (parse_build_date s).isSome)) ∧
    (∀ s : String, matches_release_pattern s "switch-18" =
        (strStartsWith (pyLower s) "switch-18-" && (parse_build_date s).isSome)) ∧
    matches_release_pattern "cs-17-2-202506022349-G9b920b73c087-rel-bricklaying" "CS-1" = true ∧
    matches_release_pattern "switch-19-202506182240-G0100853be368-jenkins-banquette" "switch-18"
      = false := by
  refine ⟨fun s => rfl, fun s => rfl, fun s => rfl, by decide, by decide⟩

set_option maxRecDepth 8000 in
/-- C3 counterexample: with a server whose second page request times out, `send_get` raises a transport error for that request, yet `get_milestones` and `get_plans` return the 250 items collected from the first page instead of propagating the error. -/
theorem c3_counterexample :
    send_get (srvTimeout 250) = .error .timeoutErr ∧
      get_milestones srvTimeout 5 = .items page250 ∧
      get_plans srvTimeout 5 = .items page250 := by
  refine ⟨rfl, ?_, ?_⟩ <;> decide

/-- C3 (amended): `send_get` surfaces timeouts and connection failures as errors to its caller and never retries, but `get_milestones` and `get_plans` catch every exception of the page loop with a bare except and return the items collected so far; a transport error is never propagated by the paginated fetches. -/
theorem c3_swallow :
    (send_get .timeout = .error .timeoutErr ∧ send_get .connError = .error .connErr) ∧
    ∀ (server : ℕ → HttpResult) (page : List ℕ),
      server 0 = .response 200 (some (.arr page)) → page.length = 250 →
      (server 250 = .timeout ∨ server 250 = .connError) →
      ∀ fuel, 2 ≤ fuel →
        get_milestones server fuel = .items page ∧ get_plans server fuel = .items page := by
  refine ⟨⟨rfl, rfl⟩, ?_⟩
  intro server page h0 hlen herr fuel hfuel
  obtain ⟨k, rfl⟩ : ∃ k, fuel = k + 2 := ⟨fuel - 2, by omega⟩
  have hne : page ≠ [] := by
    intro e
    rw [e] at hlen
    simp at hlen
  have hsg0 : send_get (server 0) = .ok (.arr page) := by
    rw [h0]
    rfl
  have hsg250 : ∃ e, send_get (server 250) = .error e := by
    rcases herr with h | h <;> rw [h] <;> exact ⟨_, rfl⟩
  obtain ⟨e, hsg250⟩ := hsg250
  constructor
  · show getMilestonesGo server (k + 2) 0 [] = .items page
    rw [getMilestonesGo, hsg0]
    simp only [hne, if_false, hlen]
    norm_num
    rw [getMilestonesGo, hsg250]
  · show getPlansGo server (k + 2) 0 [] = .items page
    rw [getPlansGo, hsg0]
    simp only [hne, if_false, hlen]
    norm_num
    rw [getPlansGo, hsg250]

/-- C3 witness: the partial-return behaviour evaluated on the concrete timing-out server. -/
theorem c3_swallow_witness :
    get_milestones srvTimeout 2 = .items page250 ∧ get_plans srvTimeout 2 = .items page250 :=
  c3_swallow.2 srvTimeout page250 rfl (by rw [page250, List.length_replicate]) (Or.inl rfl) 2 le_rfl

/-- C8: for a server answering pages of sizes 250, 250 and 100, `get_results_for_run` with no limit returns exactly the 600 items in request order and issues exactly the three requests at offsets 0, 250 and 500, stopping after the short page. -/
theorem c8_pagination (p1 p2 p3 : List ℕ) (server : ℕ → HttpResult)
    (h1 : server 0 = .response 200 (some (.arr p1)))
    (h2 : server 250 = .response 200 (some (.arr p2)))
    (h3 : server 500 = .response 200 (some (.arr p3)))
    (l1 : p1.length = 250) (l2 : p2.length = 250) (l3 : p3.length = 100) :
    ∀ fuel, 3 ≤ fuel →
      get_results_for_run server none fuel = (p1 ++ p2 ++ p3, [0, 250, 500]) ∧
        (p1 ++ p2 ++ p3).length = 600 := by
  intro fuel hfuel
  obtain ⟨k, rfl⟩ : ∃ k, fuel = k + 3 := ⟨fuel - 3, by omega⟩
  have hne1 : p1 ≠ [] := by intro e; rw [e] at l1; simp at l1
  have hne2 : p2 ≠ [] := by intro e; rw [e] at l2; simp at l2
  have hne3 : p3 ≠ [] := by intro e; rw [e] at l3; simp at l3
  have hsg1 : send_get (server 0) = .ok (.arr p1) := by rw [h1]; rfl
  have hsg2 : send_get (server 250) = .ok (.arr p2) := by rw [h2]; rfl
  have hsg3 : send_get (server 500) = .ok (.arr p3) := by rw [h3]; rfl
  have hlen600 : (p1 ++ p2 ++ p3).length = 600 := by
    rw [List.length_append, List.length_append, l1, l2, l3]
  refine ⟨?_, hlen600⟩
  show getResultsGo server none (k + 3) 0 [] [] = (p1 ++ p2 ++ p3, [0, 250, 500])
  rw [getResultsGo, hsg1]
  simp only [hne1, if_false, l1]
  norm_num
  rw [getResultsGo, hsg2]
  simp only [hne2, if_false, l2]
  norm_num
  rw [getResultsGo, hsg3]
  simp only [hne3, if_false, l3]
  norm_num
  simp [l1, l2, l3]

/-- C8 witness: the theorem evaluated on the concrete three-page server. -/
theorem c8_pagination_witness :
    get_results_for_run srvPages none 3 = (pageA ++ pageB ++ pageC, [0, 250, 500]) ∧
      (pageA ++ pageB ++ pageC).length = 600 :=
  c8_pagination pageA pageB pageC srvPages rfl rfl rfl
    (by rw [pageA, List.length_replicate]) (by rw [pageB, List.length_replicate])
    (by rw [pageC, List.length_replicate]) 3 le_rfl

/-- A successful `send_get` comes from a 200 response with the same JSON body. -/
theorem send_get_ok {r : HttpResult} {v : JsonVal} (h : send_get r = .ok v) :
    r = .response 200 (some v) := by
  cases r with
  | timeout => cases h
  | connError => cases h
  | response st body =>
    simp only [send_get] at h
    split at h
    · cases h
    · rename_i hst
      cases body with
      | none => cases h
      | some v2 =>
        have hv : v2 = v := by injection h
        have hst2 : st = 200 := by omega
        rw [hv, hst2]

/-- Bound on the accumulation loop: when every page respects the 250-item limit, at most one batch is appended beyond the 10000 ceiling. -/
theorem getResultsGo_bound (server : ℕ → HttpResult)
    (hc : ∀ o xs, server o = .response 200 (some (.arr xs)) → xs.length ≤ 250) :
    ∀ fuel offset acc log, acc.length ≤ 10000 →
      ((getResultsGo server none fuel offset acc log).1).length ≤ 10250 := by
  intro fuel
  induction fuel with
  | zero =>
    intro offset acc log hacc
    simp only [getResultsGo]
    omega
  | succ k ih =>
    intro offset acc log hacc
    simp only [getResultsGo]
    rcases hsg : send_get (server offset) with e | v
    · simp only
      omega
    · cases v with
      | obj =>
        simp only
        omega
      | arr batch =>
        have hb : batch.length ≤ 250 := hc offset batch (send_get_ok hsg)
        simp only
        by_cases hbe : batch = []
        · simp only [hbe, if_true]
          omega
        · simp only [hbe, if_false, List.length_append]
          by_cases hlt : batch.length < 250
          · simp only [hlt, if_true]
            have := List.length_append acc batch
            omega
          · simp only [hlt, if_false]
            by_cases hbig : 10000 < acc.length + batch.length
            · simp only [hbig, if_true]
              have := List.length_append acc batch
              omega
            · simp only [hbig, if_false]
              apply ih
              rw [List.length_append]
              omega

/-- Against the all-full-pages server the loop reaches exactly 10250 items. -/
theorem getResultsGo_full :
    ∀ fuel offset acc log, acc.length = 250 * (41 - fuel) → fuel ≤ 41 →
      ((getResultsGo serverFull none fuel offset acc log).1).length = 10250 := by
  intro fuel
  induction fuel with
  | zero =>
    intro offset acc log hacc _
    simp only [getResultsGo]
    omega
  | succ k ih =>
    intro offset acc log hacc hfuel
    have hsg : send_get (serverFull offset) = .ok (.arr page250) := rfl
    have hne : page250 ≠ [] := by
      intro e
      have he := congrArg List.length e
      rw [page250, List.length_replicate] at he
      simp at he
    have hlen : page250.length = 250 := by rw [page250, List.length_replicate]
    have hlapp : (acc ++ page250).length = acc.length + 250 := by
      rw [List.length_append, hlen]
    simp only [getResultsGo, hsg, hne, if_false, hlen, lt_self_iff_false]
    rcases Nat.eq_zero_or_pos k with hk | hk
    · subst hk
      have hbig : 10000 < (acc ++ page250).length := by omega
      simp only [hbig, if_true]
      omega
    · have hsmall : ¬ 10000 < (acc ++ page250).length := by omega
      simp only [hsmall, if_false]
      apply ih
      · omega
      · omega

/-- C10: whenever the server respects the 250-item page limit, `get_results_for_run` with no limit returns at most 10250 items, since the ceiling test runs only after a full batch was already appended; and 41 consecutive full pages of 250 yield 10250 items, strictly more than 10000. -/
theorem c10_ceiling :
    (∀ (server : ℕ → HttpResult) (fuel : ℕ),
        (∀ o xs, server o = .response 200 (some (.arr xs)) → xs.length ≤ 250) →
        ((get_results_for_run server none fuel).1).length ≤ 10250) ∧
      10000 < ((get_results_for_run serverFull none 41).1).length := by
  constructor
  · intro server fuel hc
    exact getResultsGo_bound server hc fuel 0 [] [] (by simp)
  · have h := getResultsGo_full 41 0 [] [] (by simp) (by omega)
    show 10000 < ((getResultsGo serverFull none 41 0 [] []).1).length
    omega

/-- C10 witness: the bound evaluated on the all-full-pages server. -/
theorem c10_ceiling_witness :
    ((get_results_for_run serverFull none 41).1).length ≤ 10250 :=
  c10_ceiling.1 serverFull 41 (by
    intro o xs h
    simp only [serverFull, HttpResult.response.injEq, Option.some.injEq, JsonVal.arr.injEq] at h
    rw [← h.2, page250, List.length_replicate])

/-- Unfolding of the platform sum on a cons cell. -/
theorem platSum_cons (x : String × PlatformData) (l : List (String × PlatformData))
    (f : DeviceData → ℕ) :
    platSum (x :: l) f = (f x.2.single + f x.2.stack) + platSum l f := by
  simp [platSum]

/-- Updating one platform entry changes the platform sum by the increment of that entry. -/
theorem updatePlatform_platSum (ps : List (String × PlatformData)) (p : String)
    (g : PlatformData → PlatformData) (f : DeviceData → ℕ) (k : ℕ)
    (hg : ∀ pd, f (g pd).single + f (g pd).stack = (f pd.single + f pd.stack) + k)
    (h0 : f emptyDevice = 0) :
    platSum (updatePlatform ps p g) f = platSum ps f + k := by
  induction ps with
  | nil =>
    show platSum [(p, g emptyPlatform)] f = platSum [] f + k
    rw [platSum_cons]
    have hge := hg emptyPlatform
    have e1 : f emptyPlatform.single = 0 := h0
    have e2 : f emptyPlatform.stack = 0 := h0
    simp only [platSum, List.map_nil, List.sum_nil]
    omega
  | cons hd tl ih =>
    obtain ⟨q, pd⟩ := hd
    show platSum (if q = p then (q, g pd) :: tl else (q, pd) :: updatePlatform tl p g) f = _
    by_cases hq : q = p
    · rw [if_pos hq, platSum_cons, platSum_cons]
      have hge := hg pd
      dsimp only
      omega
    · rw [if_neg hq, platSum_cons, platSum_cons, ih]
      dsimp only
      omega

/-- One accumulation step preserves the aggregation invariant. -/
theorem applyRun_inv (b : BuildRecord) (r : RunInput) (h : AggInv b) :
    AggInv (applyRun b r) := by
  obtain ⟨h1, h2, h3⟩ := h
  unfold applyRun
  by_cases hcls : r.platform ≠ "Unknown" ∧ (r.device = "single" ∨ r.device = "stack")
  · rw [if_pos hcls]
    by_cases hdev : r.device = "single"
    · rw [if_pos hdev]
      refine ⟨?_, ?_, ?_⟩
      · rw [updatePlatform_platSum _ _ _ _ r.counts.passed
          (fun pd => by simp [bumpDevice]; omega) (by simp [emptyDevice])]
        simp only [addCounts]
        omega
      · rw [updatePlatform_platSum _ _ _ _ r.counts.failed
          (fun pd => by simp [bumpDevice]; omega) (by simp [emptyDevice])]
        simp only [addCounts]
        omega
      · rw [updatePlatform_platSum _ _ _ _ r.counts.error
          (fun pd => by simp [bumpDevice]; omega) (by simp [emptyDevice])]
        simp only [addCounts]
        omega
    · rw [if_neg hdev]
      refine ⟨?_, ?_, ?_⟩
      · rw [updatePlatform_platSum _ _ _ _ r.counts.passed
          (fun pd => by simp [bumpDevice]; omega) (by simp [emptyDevice])]
        simp only [addCounts]
        omega
      · rw [updatePlatform_platSum _ _ _ _ r.counts.failed
          (fun pd => by simp [bumpDevice]; omega) (by simp [emptyDevice])]
        simp only [addCounts]
        omega
      · rw [updatePlatform_platSum _ _ _ _ r.counts.error
          (fun pd => by simp [bumpDevice]; omega) (by simp [emptyDevice])]
        simp only [addCounts]
        omega
  · rw [if_neg hcls]
    refine ⟨?_, ?_, ?_⟩ <;> simp only [addCounts] <;> omega

/-- Every accumulation sequence preserves the aggregation invariant. -/
theorem foldl_applyRun_inv (runs : List RunInput) :
    ∀ b : BuildRecord, AggInv b → AggInv (runs.foldl applyRun b) := by
  induction runs with
  | nil => intro b hb; exact hb
  | cons r rs ih =>
    intro b hb
    exact ih (applyRun b r) (applyRun_inv b r hb)

/-- C6: starting from a freshly initialised build, after every sequence of run accumulations each overall counter for passed, failed and error dominates the sum of that status over all platform/topology buckets; a run with an Unknown platform or unclassified topology counts toward overall only. Universality over the run list covers every intermediate point of the accumulation. -/
theorem c6_agg_invariant (name date : String) (runs : List RunInput) :
    AggInv (runs.foldl applyRun (initBuild name date)) := by
  apply foldl_applyRun_inv
  refine ⟨?_, ?_, ?_⟩ <;> simp [initBuild, platSum]

/-- Updating an absent key appends a freshly defaulted entry. -/
theorem updatePlatform_not_mem (ps : List (String × PlatformData)) (p : String)
    (f : PlatformData → PlatformData) (h : p ∉ ps.map Prod.fst) :
    updatePlatform ps p f = ps ++ [(p, f emptyPlatform)] := by
  induction ps with
  | nil => rfl
  | cons hd tl ih =>
    obtain ⟨q, pd⟩ := hd
    simp only [List.map_cons, List.mem_cons] at h
    push_neg at h
    show (if q = p then _ else _) = _
    rw [if_neg (by exact fun e => h.1 e.symm), ih h.2]
    rfl

/-- Updating a present key rewrites that entry in place. -/
theorem updatePlatform_mid (A B : List (String × PlatformData)) (p : String)
    (X : PlatformData) (f : PlatformData → PlatformData) (h : p ∉ A.map Prod.fst) :
    updatePlatform (A ++ (p, X) :: B) p f = A ++ (p, f X) :: B := by
  induction A with
  | nil =>
    show (if p = p then _ else _) = _
    rw [if_pos rfl]
    rfl
  | cons hd tl ih =>
    obtain ⟨q, pd⟩ := hd
    simp only [List.map_cons, List.mem_cons] at h
    push_neg at h
    show (if q = p then _ else _) = _
    rw [if_neg (by exact fun e => h.1 e.symm)]
    show (q, pd) :: updatePlatform (tl ++ (p, X) :: B) p f = (q, pd) :: (tl ++ (p, f X) :: B)
    rw [ih h.2]

/-- Assigning an absent section key appends the pair. -/
theorem upsertSection_not_mem (secs : List (String × ℕ)) (s : String) (n : ℕ)
    (h : s ∉ secs.map Prod.fst) :
    upsertSection secs s n = secs ++ [(s, n)] := by
  induction secs with
  | nil => rfl
  | cons hd tl ih =>
    obtain ⟨t, m⟩ := hd
    simp only [List.map_cons, List.mem_cons] at h
    push_neg at h
    show (if t = s then _ else _) = _
    rw [if_neg (by exact fun e => h.1 e.symm)]
    show (t, m) :: upsertSection tl s n = (t, m) :: (tl ++ [(s, n)])
    rw [ih h.2]

/-- Effect of one 5-column PLATFORMS row for the single bucket. -/
theorem loadGo_platform_row_single (p : String) (d : DeviceData) (rest : List Row)
    (b : LoadedBuild) (hp1 : p ≠ "SUMMARY") (hp2 : p ≠ "PLATFORMS") (hp3 : p ≠ "SECTIONS") :
    loadGo (deviceRow p "single" d :: rest) .platforms b =
      loadGo rest .platforms (setPlatformsL b (updatePlatform b.platforms p
        (fun pd => { pd with single := setDevCounts pd.single d.passed d.failed d.error }))) := by
  simp only [deviceRow]
  conv_lhs => rw [loadGo.eq_def]
  dsimp only
  rw [if_neg (by simp [hp1]), if_neg (by simp [hp2]), if_neg (by simp [hp3])]
  simp only [applyPlatformRow, cellNat, applyPlatformCells, cellStr]
  simp only [if_true, if_false, setPlatformsL]

/-- Effect of one 5-column PLATFORMS row for the stack bucket. -/
theorem loadGo_platform_row_stack (p : String) (d : DeviceData) (rest : List Row)
    (b : LoadedBuild) (hp1 : p ≠ "SUMMARY") (hp2 : p ≠ "PLATFORMS") (hp3 : p ≠ "SECTIONS") :
    loadGo (deviceRow p "stack" d :: rest) .platforms b =
      loadGo rest .platforms (setPlatformsL b (updatePlatform b.platforms p
        (fun pd => { pd with stack := setDevCounts pd.stack d.passed d.failed d.error }))) := by
  simp only [deviceRow]
  conv_lhs => rw [loadGo.eq_def]
  dsimp only
  rw [if_neg (by simp [hp1]), if_neg (by simp [hp2]), if_neg (by simp [hp3])]
  simp only [applyPlatformRow, cellNat, applyPlatformCells, cellStr]
  rw [if_neg (by simp)]
  simp only [if_true, if_false, setPlatformsL]

/-- The PLATFORMS pass appends every written platform with its counts and empty sections. -/
theorem loadGo_platformRows (ps : List (String × PlatformData)) (rest : List Row)
    (b : LoadedBuild)
    (hnd : (ps.map Prod.fst).Nodup)
    (hdisj : ∀ x ∈ ps, x.1 ∉ b.platforms.map Prod.fst)
    (hhdr : ∀ x ∈ ps, x.1 ≠ "SUMMARY" ∧ x.1 ≠ "PLATFORMS" ∧ x.1 ≠ "SECTIONS") :
    loadGo (platformRows ps ++ rest) .platforms b =
      loadGo rest .platforms
        (setPlatformsL b (b.platforms ++ ps.map (fun x => (x.1, stripPlat x.2)))) := by
  induction ps generalizing b with
  | nil =>
    simp [platformRows, setPlatformsL]
  | cons hd tl ih =>
    obtain ⟨p, pd⟩ := hd
    have hp := hhdr (p, pd) (List.mem_cons_self _ _)
    have hplat : p ∉ b.platforms.map Prod.fst := hdisj (p, pd) (List.mem_cons_self _ _)
    have hnd2 : (tl.map Prod.fst).Nodup := (List.nodup_cons.mp hnd).2
    have hpnotl : p ∉ tl.map Prod.fst := (List.nodup_cons.mp hnd).1
    have hrows : platformRows ((p, pd) :: tl) ++ rest =
        deviceRow p "single" pd.single :: deviceRow p "stack" pd.stack ::
          (platformRows tl ++ rest) := by
      simp [platformRows]
    rw [hrows, loadGo_platform_row_single p pd.single _ b hp.1 hp.2.1 hp.2.2,
        loadGo_platform_row_stack p pd.stack _ _ hp.1 hp.2.1 hp.2.2]
    simp only [setPlatformsL]
    rw [updatePlatform_not_mem _ _ _ hplat]
    rw [updatePlatform_mid b.platforms [] p _ _ hplat]
    rw [ih]
    · simp [setPlatformsL, List.append_assoc]
      rfl
    · exact hnd2
    · intro x hx
      simp only [setPlatformsL]
      simp only [List.map_append, List.mem_append, List.map_cons, List.map_nil, List.mem_cons]
      push_neg
      refine ⟨fun hin => hdisj x (List.mem_cons_of_mem _ hx) hin, ?_, fun hf => (List.not_mem_nil _ hf).elim⟩
      intro e
      exact hpnotl (e ▸ (List.mem_map_of_mem Prod.fst hx))
    · intro x hx
      exact hhdr x (List.mem_cons_of_mem _ hx)

/-- Effect of one SECTIONS row for the single bucket. -/
theorem loadGo_section_row_single (p s : String) (c : ℕ) (rest : List Row) (b : LoadedBuild)
    (hp1 : p ≠ "SUMMARY") (hp2 : p ≠ "PLATFORMS") (hp3 : p ≠ "SECTIONS") :
    loadGo ([Cell.str p, Cell.str "single", Cell.str s, Cell.nat c] :: rest) .sections b =
      loadGo rest .sections (setPlatformsL b (updatePlatform b.platforms p
        (fun pd => { pd with single := { pd.single with sections := upsertSection pd.single.sections s c } }))) := by
  conv_lhs => rw [loadGo.eq_def]
  dsimp only
  rw [if_neg (by simp [hp1]), if_neg (by simp [hp2]), if_neg (by simp [hp3])]
  simp only [applySectionRow, cellNat, cellStr]
  simp only [if_true, if_false, setPlatformsL]

/-- Effect of one SECTIONS row for the stack bucket. -/
theorem loadGo_section_row_stack (p s : String) (c : ℕ) (rest : List Row) (b : LoadedBuild)
    (hp1 : p ≠ "SUMMARY") (hp2 : p ≠ "PLATFORMS") (hp3 : p ≠ "SECTIONS") :
    loadGo ([Cell.str p, Cell.str "stack", Cell.str s, Cell.nat c] :: rest) .sections b =
      loadGo rest .sections (setPlatformsL b (updatePlatform b.platforms p
        (fun pd => { pd with stack := { pd.stack with sections := upsertSection pd.stack.sections s c } }))) := by
  conv_lhs => rw [loadGo.eq_def]
  dsimp only
  rw [if_neg (by simp [hp1]), if_neg (by simp [hp2]), if_neg (by simp [hp3])]
  simp only [applySectionRow, cellNat, cellStr]
  rw [if_neg (by simp)]
  simp only [if_true, if_false, setPlatformsL]

/-- The section rows of one single bucket restore its section list. -/
theorem loadGo_secRowsDev_single (secs : List (String × ℕ)) (p : String)
    (A B : List (String × PlatformData)) :
    ∀ (rest : List Row) (b : LoadedBuild) (X : PlatformData),
    b.platforms = A ++ (p, X) :: B →
    p ∉ A.map Prod.fst →
    p ≠ "SUMMARY" → p ≠ "PLATFORMS" → p ≠ "SECTIONS" →
    (secs.map Prod.fst).Nodup →
    (∀ sc ∈ secs, 0 < sc.2) →
    (∀ sc ∈ secs, sc.1 ∉ X.single.sections.map Prod.fst) →
    loadGo (sectionRowsDev p "single" secs ++ rest) .sections b =
      loadGo rest .sections (setPlatformsL b (A ++ (p, addSecsSingle X secs) :: B)) := by
  induction secs with
  | nil =>
    intro rest b X hb hA hp1 hp2 hp3 hnd hpos hdisj
    have hX : addSecsSingle X [] = X := by
      simp [addSecsSingle]
    rw [hX, ← hb]
    simp [sectionRowsDev, setPlatformsL]
  | cons hd tl ih =>
    intro rest b X hb hA hp1 hp2 hp3 hnd hpos hdisj
    obtain ⟨s, c⟩ := hd
    have hc : 0 < c := hpos (s, c) (List.mem_cons_self _ _)
    have hrow : sectionRowsDev p "single" ((s, c) :: tl) =
        [Cell.str p, Cell.str "single", Cell.str s, Cell.nat c] ::
          sectionRowsDev p "single" tl := by
      simp [sectionRowsDev, hc]
    have hnd2 : (tl.map Prod.fst).Nodup := (List.nodup_cons.mp hnd).2
    have hpos2 : ∀ sc ∈ tl, 0 < sc.2 := fun sc hsc => hpos sc (List.mem_cons_of_mem _ hsc)
    have hdisj2 : ∀ sc ∈ tl, sc.1 ∉ (X.single.sections ++ [(s, c)]).map Prod.fst := by
      intro sc hsc
      simp only [List.map_append, List.mem_append, List.map_cons, List.map_nil, List.mem_cons]
      push_neg
      exact ⟨fun hin => hdisj sc (List.mem_cons_of_mem _ hsc) hin,
        fun e => (List.nodup_cons.mp hnd).1 (by
          have hm : sc.1 ∈ tl.map Prod.fst := List.mem_map_of_mem Prod.fst hsc
          rw [e] at hm
          exact hm),
        fun hf => (List.not_mem_nil _ hf).elim⟩
    rw [hrow, List.cons_append, loadGo_section_row_single p s c _ b hp1 hp2 hp3,
        hb, updatePlatform_mid A B p X _ hA]
    dsimp only
    rw [upsertSection_not_mem _ _ _ (hdisj (s, c) (List.mem_cons_self _ _))]
    rw [ih rest _ ({ X with single := { X.single with sections := X.single.sections ++ [(s, c)] } }) rfl hA hp1 hp2 hp3 hnd2 hpos2 hdisj2]
    simp [setPlatformsL, addSecsSingle, List.append_assoc]

/-- The section rows of one stack bucket restore its section list. -/
theorem loadGo_secRowsDev_stack (secs : List (String × ℕ)) (p : String)
    (A B : List (String × PlatformData)) :
    ∀ (rest : List Row) (b : LoadedBuild) (X : PlatformData),
    b.platforms = A ++ (p, X) :: B →
    p ∉ A.map Prod.fst →
    p ≠ "SUMMARY" → p ≠ "PLATFORMS" → p ≠ "SECTIONS" →
    (secs.map Prod.fst).Nodup →
    (∀ sc ∈ secs, 0 < sc.2) →
    (∀ sc ∈ secs, sc.1 ∉ X.stack.sections.map Prod.fst) →
    loadGo (sectionRowsDev p "stack" secs ++ rest) .sections b =
      loadGo rest .sections (setPlatformsL b (A ++ (p, addSecsStack X secs) :: B)) := by
  induction secs with
  | nil =>
    intro rest b X hb hA hp1 hp2 hp3 hnd hpos hdisj
    have hX : addSecsStack X [] = X := by
      simp [addSecsStack]
    rw [hX, ← hb]
    simp [sectionRowsDev, setPlatformsL]
  | cons hd tl ih =>
    intro rest b X hb hA hp1 hp2 hp3 hnd hpos hdisj
    obtain ⟨s, c⟩ := hd
    have hc : 0 < c := hpos (s, c) (List.mem_cons_self _ _)
    have hrow : sectionRowsDev p "stack" ((s, c) :: tl) =
        [Cell.str p, Cell.str "stack", Cell.str s, Cell.nat c] ::
          sectionRowsDev p "stack" tl := by
      simp [sectionRowsDev, hc]
    have hnd2 : (tl.map Prod.fst).Nodup := (List.nodup_cons.mp hnd).2
    have hpos2 : ∀ sc ∈ tl, 0 < sc.2 := fun sc hsc => hpos sc (List.mem_cons_of_mem _ hsc)
    have hdisj2 : ∀ sc ∈ tl, sc.1 ∉ (X.stack.sections ++ [(s, c)]).map Prod.fst := by
      intro sc hsc
      simp only [List.map_append, List.mem_append, List.map_cons, List.map_nil, List.mem_cons]
      push_neg
      exact ⟨fun hin => hdisj sc (List.mem_cons_of_mem _ hsc) hin,
        fun e => (List.nodup_cons.mp hnd).1 (by
          have hm : sc.1 ∈ tl.map Prod.fst := List.mem_map_of_mem Prod.fst hsc
          rw [e] at hm
          exact hm),
        fun hf => (List.not_mem_nil _ hf).elim⟩
    rw [hrow, List.cons_append, loadGo_section_row_stack p s c _ b hp1 hp2 hp3,
        hb, updatePlatform_mid A B p X _ hA]
    dsimp only
    rw [upsertSection_not_mem _ _ _ (hdisj (s, c) (List.mem_cons_self _ _))]
    rw [ih rest _ ({ X with stack := { X.stack with sections := X.stack.sections ++ [(s, c)] } }) rfl hA hp1 hp2 hp3 hnd2 hpos2 hdisj2]
    simp [setPlatformsL, addSecsStack, List.append_assoc]

/-- The SECTIONS pass restores every platform entry in full. -/
theorem loadGo_sectionRows (ps : List (String × PlatformData)) :
    ∀ (rest : List Row) (b : LoadedBuild) (done : List (String × PlatformData)),
    b.platforms = done ++ ps.map (fun x => (x.1, stripPlat x.2)) →
    ((done ++ ps).map Prod.fst).Nodup →
    (∀ x ∈ ps, x.1 ≠ "SUMMARY" ∧ x.1 ≠ "PLATFORMS" ∧ x.1 ≠ "SECTIONS") →
    (∀ x ∈ ps, (x.2.single.sections.map Prod.fst).Nodup ∧
      (x.2.stack.sections.map Prod.fst).Nodup) →
    (∀ x ∈ ps, (∀ sc ∈ x.2.single.sections, 0 < sc.2) ∧
      (∀ sc ∈ x.2.stack.sections, 0 < sc.2)) →
    loadGo (sectionRows ps ++ rest) .sections b =
      loadGo rest .sections (setPlatformsL b (done ++ ps)) := by
  induction ps with
  | nil =>
    intro rest b done hb hnd hhdr hsnd hpos
    simp only [List.map_nil, List.append_nil] at hb
    simp only [sectionRows, List.map_nil, List.flatten_nil, List.nil_append, List.append_nil]
    rw [← hb]
    simp [setPlatformsL]
  | cons hd tl ih =>
    intro rest b done hb hnd hhdr hsnd hpos
    obtain ⟨p, pd⟩ := hd
    have hp := hhdr (p, pd) (List.mem_cons_self _ _)
    have hnd' := hnd
    rw [List.map_append] at hnd'
    have hdisjoint := (List.nodup_append.mp hnd').2.2
    have hA : p ∉ done.map Prod.fst := by
      intro hmem
      exact hdisjoint hmem (by simp)
    have hrows : sectionRows ((p, pd) :: tl) ++ rest =
        sectionRowsDev p "single" pd.single.sections ++
          (sectionRowsDev p "stack" pd.stack.sections ++ (sectionRows tl ++ rest)) := by
      simp [sectionRows, List.append_assoc]
    have hbcons : b.platforms = done ++ (p, stripPlat pd) :: tl.map (fun x => (x.1, stripPlat x.2)) := by
      rw [hb]
      simp
    rw [hrows]
    rw [loadGo_secRowsDev_single pd.single.sections p done
        (tl.map (fun x => (x.1, stripPlat x.2))) _ b (stripPlat pd) hbcons hA
        hp.1 hp.2.1 hp.2.2 (hsnd (p, pd) (List.mem_cons_self _ _)).1
        (hpos (p, pd) (List.mem_cons_self _ _)).1
        (fun sc hsc => by simp [stripPlat])]
    rw [loadGo_secRowsDev_stack pd.stack.sections p done
        (tl.map (fun x => (x.1, stripPlat x.2))) _ _
        (addSecsSingle (stripPlat pd) pd.single.sections) (by simp [setPlatformsL]) hA
        hp.1 hp.2.1 hp.2.2 (hsnd (p, pd) (List.mem_cons_self _ _)).2
        (hpos (p, pd) (List.mem_cons_self _ _)).2
        (fun sc hsc => by simp [addSecsSingle, stripPlat])]
    rw [show addSecsStack (addSecsSingle (stripPlat pd) pd.single.sections) pd.stack.sections
        = pd from rfl]
    rw [ih rest _ (done ++ [(p, pd)]) (by simp [setPlatformsL, List.append_assoc]) ?hnd2 ?hhdr2 ?hsnd2 ?hpos2]
    case hnd2 =>
      have : (done ++ [(p, pd)]) ++ tl = done ++ (p, pd) :: tl := by
        simp [List.append_assoc]
      rw [this]
      exact hnd
    case hhdr2 => exact fun x hx => hhdr x (List.mem_cons_of_mem _ hx)
    case hsnd2 => exact fun x hx => hsnd x (List.mem_cons_of_mem _ hx)
    case hpos2 => exact fun x hx => hpos x (List.mem_cons_of_mem _ hx)
    simp [setPlatformsL, List.append_assoc]

/-- A SUMMARY sentinel row switches state and skips the header row. -/
theorem loadGo_header_summary (r2 : Row) (rest : List Row) (sect : LoadSect) (b : LoadedBuild) :
    loadGo ([Cell.str "SUMMARY"] :: r2 :: rest) sect b = loadGo rest .summary b := by
  conv_lhs => rw [loadGo.eq_def]
  dsimp only
  rw [if_pos rfl]

/-- A PLATFORMS sentinel row switches state and skips the header row. -/
theorem loadGo_header_platforms (r2 : Row) (rest : List Row) (sect : LoadSect) (b : LoadedBuild) :
    loadGo ([Cell.str "PLATFORMS"] :: r2 :: rest) sect b = loadGo rest .platforms b := by
  conv_lhs => rw [loadGo.eq_def]
  dsimp only
  rw [if_neg (by simp), if_pos rfl]

/-- A SECTIONS sentinel row switches state and skips the header row. -/
theorem loadGo_header_sections (r2 : Row) (rest : List Row) (sect : LoadSect) (b : LoadedBuild) :
    loadGo ([Cell.str "SECTIONS"] :: r2 :: rest) sect b = loadGo rest .sections b := by
  conv_lhs => rw [loadGo.eq_def]
  dsimp only
  rw [if_neg (by simp), if_neg (by simp), if_pos rfl]

/-- Empty rows are skipped. -/
theorem loadGo_empty_row (rest : List Row) (sect : LoadSect) (b : LoadedBuild) :
    loadGo ([] :: rest) sect b = loadGo rest sect b := by
  conv_lhs => rw [loadGo.eq_def]

/-- Effect of the name metric row. -/
theorem loadGo_sum_name (v : String) (rest : List Row) (b : LoadedBuild) :
    loadGo ([Cell.str "name", Cell.str v] :: rest) .summary b =
      loadGo rest .summary { b with name? := some v } := by
  conv_lhs => rw [loadGo.eq_def]
  dsimp only
  rw [if_neg (by simp), if_neg (by simp), if_neg (by simp)]
  simp only [setMetric, cellStr, cellNat, if_true, if_false]

/-- Effect of the date metric row. -/
theorem loadGo_sum_date (v : String) (rest : List Row) (b : LoadedBuild) :
    loadGo ([Cell.str "date", Cell.str v] :: rest) .summary b =
      loadGo rest .summary { b with date? := some v } := by
  conv_lhs => rw [loadGo.eq_def]
  dsimp only
  rw [if_neg (by simp), if_neg (by simp), if_neg (by simp)]
  simp only [setMetric, cellStr, cellNat]
  rw [if_neg (by simp)]
  rfl

/-- Effect of the passed metric row. -/
theorem loadGo_sum_passed (n : ℕ) (rest : List Row) (b : LoadedBuild) :
    loadGo ([Cell.str "passed", Cell.nat n] :: rest) .summary b =
      loadGo rest .summary { b with overall.passed := n } := by
  conv_lhs => rw [loadGo.eq_def]
  dsimp only
  rw [if_neg (by simp), if_neg (by simp), if_neg (by simp)]
  simp only [setMetric, cellStr, cellNat]
  rw [if_neg (by simp)]
  rw [if_neg (by simp)]
  rfl

/-- Effect of the failed metric row. -/
theorem loadGo_sum_failed (n : ℕ) (rest : List Row) (b : LoadedBuild) :
    loadGo ([Cell.str "failed", Cell.nat n] :: rest) .summary b =
      loadGo rest .summary { b with overall.failed := n } := by
  conv_lhs => rw [loadGo.eq_def]
  dsimp only
  rw [if_neg (by simp), if_neg (by simp), if_neg (by simp)]
  simp only [setMetric, cellStr, cellNat]
  rw [if_neg (by simp)]
  rw [if_neg (by simp)]
  rw [if_neg (by simp)]
  rfl

/-- Effect of the error metric row. -/
theorem loadGo_sum_error (n : ℕ) (rest : List Row) (b : LoadedBuild) :
    loadGo ([Cell.str "error", Cell.nat n] :: rest) .summary b =
      loadGo rest .summary { b with overall.error := n } := by
  conv_lhs => rw [loadGo.eq_def]
  dsimp only
  rw [if_neg (by simp), if_neg (by simp), if_neg (by simp)]
  simp only [setMetric, cellStr, cellNat]
  rw [if_neg (by simp)]
  rw [if_neg (by simp)]
  rw [if_neg (by simp)]
  rw [if_neg (by simp)]
  rfl

/-- Effect of the blocked metric row. -/
theorem loadGo_sum_blocked (n : ℕ) (rest : List Row) (b : LoadedBuild) :
    loadGo ([Cell.str "blocked", Cell.nat n] :: rest) .summary b =
      loadGo rest .summary { b with overall.blocked := n } := by
  conv_lhs => rw [loadGo.eq_def]
  dsimp only
  rw [if_neg (by simp), if_neg (by simp), if_neg (by simp)]
  simp only [setMetric, cellStr, cellNat]
  rw [if_neg (by simp)]
  rw [if_neg (by simp)]
  rw [if_neg (by simp)]
  rw [if_neg (by simp)]
  rw [if_neg (by simp)]
  rfl

/-- Effect of the retest metric row. -/
theorem loadGo_sum_retest (n : ℕ) (rest : List Row) (b : LoadedBuild) :
    loadGo ([Cell.str "retest", Cell.nat n] :: rest) .summary b =
      loadGo rest .summary { b with overall.retest := n } := by
  conv_lhs => rw [loadGo.eq_def]
  dsimp only
  rw [if_neg (by simp), if_neg (by simp), if_neg (by simp)]
  simp only [setMetric, cellStr, cellNat]
  rw [if_neg (by simp)]
  rw [if_neg (by simp)]
  rw [if_neg (by simp)]
  rw [if_neg (by simp)]
  rw [if_neg (by simp)]
  rw [if_neg (by simp)]
  rfl

/-- Effect of the skipped metric row. -/
theorem loadGo_sum_skipped (n : ℕ) (rest : List Row) (b : LoadedBuild) :
    loadGo ([Cell.str "skipped", Cell.nat n] :: rest) .summary b =
      loadGo rest .summary { b with overall.skipped := n } := by
  conv_lhs => rw [loadGo.eq_def]
  dsimp only
  rw [if_neg (by simp), if_neg (by simp), if_neg (by simp)]
  simp only [setMetric, cellStr, cellNat]
  rw [if_neg (by simp)]
  rw [if_neg (by simp)]
  rw [if_neg (by simp)]
  rw [if_neg (by simp)]
  rw [if_neg (by simp)]
  rw [if_neg (by simp)]
  rw [if_neg (by simp)]
  rfl

/-- C1 (amended): cache round-trip. For every build record with unique dict keys, platform names distinct from the three section sentinels, and all section counts positive, loading the rows written by `save_build_data_to_csv` yields exactly the original record (as the loader view `toLoaded`); and a file with a legacy 4-column PLATFORMS row parses with the error count defaulting to 0. -/
theorem c1_round_trip :
    (∀ b : BuildRecord, WFRecord b → PosSections b →
        load_build_data_from_csv (save_build_data_to_csv b) = some (toLoaded b)) ∧
      load_build_data_from_csv legacyRows = some legacyLoaded := by
  constructor
  · intro b hwf hpos
    obtain ⟨hnd, hhdr, hsnd⟩ := hwf
    show loadGo (save_build_data_to_csv b) .start emptyLoaded = some (toLoaded b)
    simp only [save_build_data_to_csv, List.append_assoc, List.cons_append, List.nil_append]
    rw [loadGo_header_summary, loadGo_sum_name, loadGo_sum_date, loadGo_sum_passed,
        loadGo_sum_failed, loadGo_sum_error, loadGo_sum_blocked, loadGo_sum_retest,
        loadGo_sum_skipped, loadGo_empty_row, loadGo_header_platforms]
    rw [loadGo_platformRows b.platforms _ _ hnd (fun x hx => by simp [emptyLoaded]) hhdr]
    rw [loadGo_empty_row, loadGo_header_sections]
    rw [← List.append_nil (sectionRows b.platforms)]
    rw [loadGo_sectionRows b.platforms [] _ [] (by simp [setPlatformsL, emptyLoaded])
        (by simpa using hnd) hhdr hsnd hpos]
    conv_lhs => rw [loadGo.eq_def]
    rfl
  · decide

/-- C1 witness: the round trip evaluated on a concrete well-formed record. -/
theorem c1_round_trip_witness :
    load_build_data_from_csv (save_build_data_to_csv wRecord) = some (toLoaded wRecord) :=
  c1_round_trip.1 wRecord (by unfold WFRecord; decide) (by unfold PosSections; decide)

/-- C1 counterexample: the claim as stated covers every record with non-negative counts, but a section entry with count 0 is omitted by the writer and absent from the reloaded record, so the round trip is not the identity on such a record. -/
theorem c1_counterexample :
    load_build_data_from_csv (save_build_data_to_csv cexRecord) ≠ some (toLoaded cexRecord) := by
  decide

end TestrailAnalyzer
